import Mathlib

/-!
Verification of `valve_control/relay_controller.py`: a shallow embedding of
the relay bank, the MIDI frame decoder, the note event router and the
control loop, with theorems checking the specification's claims.
-/

deriving instance DecidableEq for Except

namespace ValveControl

/-- `Value` enum from the source (`ON = 0`, `OFF = 1`): the binary state of
one relay output. -/
inductive Value where
  | ON
  | OFF
  deriving DecidableEq, Fintype

/-- The observable state of the three relay outputs of the bank
(`MIDIRelayController.relays[0..2]`); each read of `Relay.value` queries the
backing medium, which this state mirrors. -/
structure RelayState where
  r0 : Value
  r1 : Value
  r2 : Value
  deriving DecidableEq, Fintype

/-- Python exception kinds raised by the embedded code (`oserror` stands
for the I/O failure an `open`/`write` on a GPIO file can raise). -/
inductive PyError where
  | valueError
  | attributeError
  | oserror
  deriving DecidableEq, Fintype

/-- `MIDIRelayController.set_value` (lines 289-306): rejects values outside
`[0, 7]` with a `ValueError` before touching any relay, otherwise writes
bit `i` of the mask to relay `i`. The returned state is the relay state
after the call, also on the error path (the exception is raised before any
write). -/
def set_value (value : Int) (s : RelayState) : Except PyError Unit × RelayState :=
  if value < 0 ∨ value > 7 then
    (Except.error PyError.valueError, s)
  else
    let s0 := { s with r0 := if Int.land value 0x01 ≠ 0 then Value.ON else Value.OFF }
    let s1 := { s0 with r1 := if Int.land value 0x02 ≠ 0 then Value.ON else Value.OFF }
    let s2 := { s1 with r2 := if Int.land value 0x04 ≠ 0 then Value.ON else Value.OFF }
    (Except.ok (), s2)

example : set_value 5 ⟨Value.OFF, Value.OFF, Value.OFF⟩ =
    (Except.ok (), ⟨Value.ON, Value.OFF, Value.ON⟩) := by decide

example : set_value 8 ⟨Value.OFF, Value.OFF, Value.OFF⟩ =
    (Except.error PyError.valueError, ⟨Value.OFF, Value.OFF, Value.OFF⟩) := by decide

/-- ASCII whitespace recognized by Python `bytes.split()` with no argument. -/
def isPyWhitespace (c : Char) : Bool :=
  c = ' ' || c = '\t' || c = '\n' || c = '\r' || c = '\x0b' || c = '\x0c'

/-- `b"".join(byte_buffer).split()` (line 252): split the accumulated buffer
on runs of whitespace, producing only non-empty tokens. -/
def splitWs (l : List Char) : List (List Char) :=
  (List.splitOnP isPyWhitespace l).filter (fun t => !t.isEmpty)

/-- Hexadecimal digit, upper or lower case. -/
def isHexChar (c : Char) : Bool :=
  ('0' ≤ c && c ≤ '9') || ('a' ≤ c && c ≤ 'f') || ('A' ≤ c && c ≤ 'F')

/-- Numeric value of a hexadecimal digit. -/
def hexCharVal (c : Char) : Nat :=
  if '0' ≤ c && c ≤ '9' then c.toNat - '0'.toNat
  else if 'a' ≤ c && c ≤ 'f' then c.toNat - 'a'.toNat + 10
  else c.toNat - 'A'.toNat + 10

/-- Digits after the first one in a CPython base-16 numeral: a single
underscore may separate two digits, never trailing or doubled. -/
def hexTail (acc : Nat) : List Char → Option Nat
  | [] => some acc
  | '_' :: rest =>
    match rest with
    | [] => none
    | c :: rest2 => if isHexChar c then hexTail (16 * acc + hexCharVal c) rest2 else none
  | c :: rest => if isHexChar c then hexTail (16 * acc + hexCharVal c) rest else none

/-- `int(b"0x" + data, base=16)` (line 255) on one whitespace-free token
`data`: CPython accepts, after the `0x` prefix, an optional underscore, then
one or more hex digits with single underscores allowed between digits, of
ANY length (the token is not required to be exactly two digits).
`none` models the `ValueError` the source catches at line 256. -/
def pyHexVal (tok : List Char) : Option Nat :=
  match tok with
  | [] => none
  | '_' :: rest =>
    match rest with
    | [] => none
    | c :: rest2 => if isHexChar c then hexTail (hexCharVal c) rest2 else none
  | c :: rest => if isHexChar c then hexTail (hexCharVal c) rest else none

/-- The list comprehension of line 255, left to right: the first token that
fails to parse raises, discarding the whole frame. -/
def hexListVal : List (List Char) → Option (List Nat)
  | [] => some []
  | t :: ts =>
    match pyHexVal t with
    | none => none
    | some v =>
      match hexListVal ts with
      | none => none
      | some vs => some (v :: vs)

/-- Lines 252-258 of `MIDIRelayController._callback`: join and split the
buffer, then parse every token as hex; `none` when some token fails to
parse (the caught `ValueError` path, which emits nothing). -/
def decodeFrame (buffer : List Char) : Option (List Nat) :=
  hexListVal (splitWs buffer)

example : decodeFrame "93 3c".toList = some [0x93, 0x3c] := by decide
example : decodeFrame "9g".toList = none := by decide
example : decodeFrame "fff".toList = some [4095] := by decide
example : decodeFrame "9".toList = some [9] := by decide

/-- `NOTE_TO_VALUE` (lines 206-214): fixed note-number to bitmask table. -/
def NOTE_TO_VALUE : List (Nat × Int) :=
  [(60, 1), (61, 2), (62, 3), (63, 4), (64, 5), (65, 6), (66, 7)]

/-- `self.NOTE_TO_VALUE.get(values[0], self.base_value)` (line 287). -/
def noteToValueGet (note : Nat) (default : Int) : Int :=
  (NOTE_TO_VALUE.lookup note).getD default

/-- Startup configuration of `MIDIRelayController`: listen channel
(1-indexed) and base bitmask. -/
structure Config where
  base_value : Int
  channel : Int
  deriving DecidableEq

/-- `MIDIRelayController._set_note_on` (lines 278-287): ignore a frame for a
foreign channel or with no data bytes, else look the first data byte up in
`NOTE_TO_VALUE` (falling back to `base_value`) and pass the result to
`set_value`. The `Option Int` is the bitmask emitted to the relay bank,
`none` when the frame is ignored. -/
def set_note_on (cfg : Config) (s : RelayState) (channel : Int) (values : List Nat) :
    Except PyError (Option Int) × RelayState :=
  if channel ≠ cfg.channel then (Except.ok none, s)
  else
    match values with
    | [] => (Except.ok none, s)
    | v :: _ =>
      match set_value (noteToValueGet v cfg.base_value) s with
      | (Except.ok _, s1) => (Except.ok (some (noteToValueGet v cfg.base_value)), s1)
      | (Except.error e, s1) => (Except.error e, s1)

/-- Lines 260-276 of `MIDIRelayController._callback`: unpack
`control, *values` (an empty decoded sequence is the caught `ValueError`
path, line 262) and dispatch on `control & 0xF0`. The NOTE_OFF branch
executes `_logger.debug(...)` at line 268 — `_logger` is the function
object itself, not the logger, so this raises `AttributeError` instead of
logging and returning. -/
def route (cfg : Config) (s : RelayState) (midi_hex : List Nat) :
    Except PyError (Option Int) × RelayState :=
  match midi_hex with
  | [] => (Except.ok none, s)
  | control :: values =>
    if control &&& 0xF0 == 0x80 then
      (Except.error PyError.attributeError, s)
    else if control &&& 0xF0 == 0x90 then
      set_note_on cfg s (((control &&& 0x0F : Nat) : Int) + 1) values
    else
      (Except.ok none, s)

/-- `MIDIRelayController._callback` (lines 248-276): empty-buffer guard,
then decode, then route. -/
def callback (cfg : Config) (s : RelayState) (byte_buffer : List Char) :
    Except PyError (Option Int) × RelayState :=
  if byte_buffer.isEmpty then (Except.ok none, s)
  else
    match decodeFrame byte_buffer with
    | none => (Except.ok none, s)
    | some midi_hex => route cfg s midi_hex

/-- `process.stdout.readline()` (line 230): consume the stream up to and
including the first newline (or the whole stream when none occurs). -/
def readline : List Char → List Char
  | [] => []
  | c :: rest => if c = '\n' then rest else readline rest

/-- The `while True` loop of `run_forever` (lines 231-245): a newline
empties the buffer, end of stream breaks, any other character is appended
to the buffer and handed to `_callback`. Returns the loop outcome (an
uncaught exception from `_callback` propagates and ends the loop), the
relay state after the loop, and the ordered trace of bitmasks emitted to
`set_value` by note-on processing. -/
def loop (cfg : Config) : List Char → List Char → RelayState →
    Except PyError Unit × RelayState × List Int
  | [], _, s => (Except.ok (), s, [])
  | c :: rest, buffer, s =>
    if c = '\n' then loop cfg rest [] s
    else
      match callback cfg s (buffer ++ [c]) with
      | (Except.error e, s1) => (Except.error e, s1, [])
      | (Except.ok act, s1) =>
        match loop cfg rest (buffer ++ [c]) s1 with
        | (out, s2, tr) => (out, s2, act.toList ++ tr)

/-- `MIDIRelayController.run_forever` (lines 225-246): apply the base
bitmask via `set_value`, discard the first line of the capture stream, then
run the character loop with an empty buffer. The trace records every
bitmask applied to the bank, the startup application first. -/
def run_forever (cfg : Config) (s : RelayState) (input : List Char) :
    Except PyError Unit × RelayState × List Int :=
  match set_value cfg.base_value s with
  | (Except.error e, s1) => (Except.error e, s1, [])
  | (Except.ok _, s1) =>
    match loop cfg (readline input) [] s1 with
    | (out, s2, tr) => (out, s2, cfg.base_value :: tr)

/-- Fresh read of `Relay.value` for output `i` of the bank (`relays[i]`,
lines 100-105): the state mirrors the backing medium. -/
def relayGet (s : RelayState) (i : Fin 3) : Value :=
  match i with
  | ⟨0, _⟩ => s.r0
  | ⟨1, _⟩ => s.r1
  | ⟨2, _⟩ => s.r2

/-- Write of `Relay.value` for output `i` of the bank (lines 107-111). -/
def relaySet (s : RelayState) (i : Fin 3) (v : Value) : RelayState :=
  match i with
  | ⟨0, _⟩ => { s with r0 := v }
  | ⟨1, _⟩ => { s with r1 := v }
  | ⟨2, _⟩ => { s with r2 := v }

/-- `Relay.toggle` (lines 113-121) on output `i` of the bank: read the
value, write `OFF` when it was `ON` and `ON` otherwise, then return a fresh
read of the value. -/
def toggle (s : RelayState) (i : Fin 3) : RelayState × Value :=
  let s1 := if relayGet s i = Value.ON then relaySet s i Value.OFF
            else relaySet s i Value.ON
  (s1, relayGet s1 i)

/-- `RELAY_1_GPIO_PIN` (line 30). -/
def RELAY_1_GPIO_PIN : Nat := 26
/-- `RELAY_2_GPIO_PIN` (line 31). -/
def RELAY_2_GPIO_PIN : Nat := 20
/-- `RELAY_3_GPIO_PIN` (line 32). -/
def RELAY_3_GPIO_PIN : Nat := 21

/-- The GPIO subsystem as seen through acquire/release: which channels are
currently held (exported and configured by a live `Relay`), and which
channels fail during `Relay._set_up`. -/
structure HwWorld where
  acquired : List Nat
  fails : Nat → Bool

/-- `Relay.__init__`/`Relay._set_up` (lines 50-81) restricted to the
channel lifecycle: on success the channel is held; on failure the
constructor raises and the channel is not held. -/
def relay_init (w : HwWorld) (channel : Nat) : Except PyError HwWorld :=
  if w.fails channel then Except.error PyError.oserror
  else Except.ok { w with acquired := channel :: w.acquired }

/-- `Relay._shut_down` (lines 83-93) restricted to the channel lifecycle:
the channel is released (unexported). -/
def relay_del (w : HwWorld) (channel : Nat) : HwWorld :=
  { w with acquired := w.acquired.erase channel }

/-- `RelayController.__init__` (lines 150-155): construct the three relays
in index order inside the list display. When the construction of one
element raises, CPython discards the already-constructed elements of the
partial list; their reference counts drop to zero and `Relay.__del__`
(lines 63-64) releases their channels before the exception reaches the
caller, which never observes a bank. -/
def relay_controller_init (w : HwWorld) : Except PyError (List Nat) × HwWorld :=
  match relay_init w RELAY_1_GPIO_PIN with
  | Except.error e => (Except.error e, w)
  | Except.ok w1 =>
    match relay_init w1 RELAY_2_GPIO_PIN with
    | Except.error e => (Except.error e, relay_del w1 RELAY_1_GPIO_PIN)
    | Except.ok w2 =>
      match relay_init w2 RELAY_3_GPIO_PIN with
      | Except.error e =>
        (Except.error e, relay_del (relay_del w2 RELAY_2_GPIO_PIN) RELAY_1_GPIO_PIN)
      | Except.ok w3 =>
        (Except.ok [RELAY_1_GPIO_PIN, RELAY_2_GPIO_PIN, RELAY_3_GPIO_PIN], w3)

/-- Reconstruction of a bitmask from the three outputs' values, bit `i` set
exactly when output `i` reads `ON` (the read-back direction of the
round-trip property). -/
def readBitmask (s : RelayState) : Int :=
  (if s.r0 = Value.ON then 1 else 0)
    + (if s.r1 = Value.ON then 2 else 0)
    + (if s.r2 = Value.ON then 4 else 0)

lemma set_value_ok_of_range (v : Int) (s : RelayState) (h0 : 0 ≤ v) (h7 : v ≤ 7) :
    ∃ s2, set_value v s = (Except.ok (), s2) := by
  unfold set_value
  rw [if_neg (by omega)]
  exact ⟨_, rfl⟩

lemma noteToValueGet_range (n : Nat) (d : Int) (h0 : 0 ≤ d) (h7 : d ≤ 7) :
    0 ≤ noteToValueGet n d ∧ noteToValueGet n d ≤ 7 := by
  unfold noteToValueGet
  simp only [NOTE_TO_VALUE, List.lookup]
  repeat' split
  all_goals simp_all

/-- **C2.** For every bitmask `m` in `[0, 7]` and every starting state,
`set_value m` succeeds; afterwards output `i` is `ON` exactly when bit `i`
of `m` is set, and recombining the three outputs' values reconstructs
exactly `m`. -/
theorem set_value_roundtrip : ∀ (m : Int) (s : RelayState), 0 ≤ m → m ≤ 7 →
    ∃ s2, set_value m s = (Except.ok (), s2) ∧
      readBitmask s2 = m ∧
      (s2.r0 = Value.ON ↔ m.natAbs.testBit 0) ∧
      (s2.r1 = Value.ON ↔ m.natAbs.testBit 1) ∧
      (s2.r2 = Value.ON ↔ m.natAbs.testBit 2) := by
  intro m s h0 h7
  revert s
  interval_cases m <;> decide

/-- Witness for C2 at `m = 5`. -/
theorem set_value_roundtrip_witness :
    ∃ s2, set_value 5 ⟨Value.OFF, Value.OFF, Value.OFF⟩ = (Except.ok (), s2) ∧
      readBitmask s2 = 5 ∧
      (s2.r0 = Value.ON ↔ (5 : Int).natAbs.testBit 0) ∧
      (s2.r1 = Value.ON ↔ (5 : Int).natAbs.testBit 1) ∧
      (s2.r2 = Value.ON ↔ (5 : Int).natAbs.testBit 2) :=
  set_value_roundtrip 5 ⟨Value.OFF, Value.OFF, Value.OFF⟩ (by decide) (by decide)

/-- **C6.** `set_value` with any integer outside `[0, 7]` raises
`ValueError` and leaves every relay output unchanged. -/
theorem set_value_rejects_out_of_range : ∀ (v : Int) (s : RelayState), v < 0 ∨ 7 < v →
    set_value v s = (Except.error PyError.valueError, s) := by
  intro v s h
  unfold set_value
  rw [if_pos]
  omega

/-- Witness for C6 at `v = 8`. -/
theorem set_value_rejects_out_of_range_witness :
    set_value 8 ⟨Value.ON, Value.OFF, Value.ON⟩ =
      (Except.error PyError.valueError, ⟨Value.ON, Value.OFF, Value.ON⟩) :=
  set_value_rejects_out_of_range 8 ⟨Value.ON, Value.OFF, Value.ON⟩ (Or.inr (by decide))

/-- **C9.** `toggle` on index `i` flips exactly output `i` (`ON` becomes
`OFF` and `OFF` becomes `ON`), leaves the other two outputs unchanged, and
returns the new value of output `i`. -/
theorem toggle_flips_exactly_one : ∀ (s : RelayState) (i : Fin 3),
    relayGet (toggle s i).1 i ≠ relayGet s i ∧
    (relayGet s i = Value.ON → relayGet (toggle s i).1 i = Value.OFF) ∧
    (relayGet s i = Value.OFF → relayGet (toggle s i).1 i = Value.ON) ∧
    (∀ j : Fin 3, j ≠ i → relayGet (toggle s i).1 j = relayGet s j) ∧
    (toggle s i).2 = relayGet (toggle s i).1 i := by
  decide

/-- Witness for C9 at state `(ON, OFF, ON)` and index `1`. -/
theorem toggle_flips_exactly_one_witness :
    relayGet (toggle ⟨Value.ON, Value.OFF, Value.ON⟩ 1).1 0 =
        relayGet ⟨Value.ON, Value.OFF, Value.ON⟩ 0 ∧
    relayGet (toggle ⟨Value.ON, Value.OFF, Value.ON⟩ 1).1 1 = Value.ON :=
  ⟨(toggle_flips_exactly_one ⟨Value.ON, Value.OFF, Value.ON⟩ 1).2.2.2.1 0 (by decide),
   (toggle_flips_exactly_one ⟨Value.ON, Value.OFF, Value.ON⟩ 1).2.2.1 rfl⟩

lemma hexListVal_eq_none {ts : List (List Char)} {t : List Char}
    (ht : t ∈ ts) (hf : pyHexVal t = none) : hexListVal ts = none := by
  induction ts with
  | nil => cases ht
  | cons x xs ih =>
    rcases List.mem_cons.1 ht with rfl | hmem
    · simp [hexListVal, hf]
    · unfold hexListVal
      cases hx : pyHexVal x
      · rfl
      · rw [ih hmem]

lemma hexListVal_some_iff (ts : List (List Char)) (l : List Nat) :
    hexListVal ts = some l ↔
      List.Forall₂ (fun tok v => pyHexVal tok = some v) ts l := by
  induction ts generalizing l with
  | nil =>
    cases l <;> simp [hexListVal]
  | cons x xs ih =>
    unfold hexListVal
    cases hx : pyHexVal x with
    | none =>
      simp only [List.forall₂_cons_left_iff]
      constructor
      · intro h; cases h
      · rintro ⟨v, vs, hv, _, rfl⟩
        rw [hx] at hv; cases hv
    | some v =>
      cases hys : hexListVal xs with
      | none =>
        simp only [List.forall₂_cons_left_iff]
        constructor
        · intro h; cases h
        · rintro ⟨v2, vs, _, hvs, rfl⟩
          have := (ih vs).2 hvs
          rw [hys] at this; cases this
      | some vs =>
        simp only [List.forall₂_cons_left_iff]
        constructor
        · rintro h
          injection h with h
          subst h
          exact ⟨v, vs, hx, (ih vs).1 hys, rfl⟩
        · rintro ⟨v2, vs2, hv2, hvs2, rfl⟩
          rw [hx] at hv2
          injection hv2 with hv2
          have := (ih vs2).2 hvs2
          rw [hys] at this
          injection this with this
          rw [hv2, this]

/-- **C4.** A newline resets the accumulation buffer to empty regardless of
its contents and emits no action (so no stale fragment taints frames after
the newline), and a buffer containing a token that fails to parse as hex
makes `_callback` return without emitting an action and without raising,
leaving the relay state untouched. -/
theorem newline_resets_and_bad_hex_is_silent :
    (∀ (cfg : Config) (rest buffer : List Char) (s : RelayState),
      loop cfg ('\n' :: rest) buffer s = loop cfg rest [] s) ∧
    (∀ (cfg : Config) (s : RelayState) (buffer : List Char),
      (∃ tok ∈ splitWs buffer, pyHexVal tok = none) →
      callback cfg s buffer = (Except.ok none, s)) := by
  constructor
  · intro cfg rest buffer s
    simp [loop]
  · rintro cfg s buffer ⟨tok, htok, hfail⟩
    have hdec : decodeFrame buffer = none := hexListVal_eq_none htok hfail
    cases buffer with
    | nil =>
      rw [show splitWs ([] : List Char) = [] from rfl] at htok
      cases htok
    | cons c cs =>
      unfold callback
      rw [if_neg (by simp)]
      rw [hdec]

/-- Witness for C4: a newline wipes the malformed fragment `9g`, and
`_callback` on `9g` silently emits nothing. -/
theorem newline_resets_and_bad_hex_is_silent_witness :
    loop ⟨0, 4⟩ ('\n' :: "93 3c".toList) "9g".toList ⟨Value.OFF, Value.OFF, Value.OFF⟩ =
      loop ⟨0, 4⟩ "93 3c".toList [] ⟨Value.OFF, Value.OFF, Value.OFF⟩ ∧
    callback ⟨0, 4⟩ ⟨Value.OFF, Value.OFF, Value.OFF⟩ "9g".toList =
      (Except.ok none, ⟨Value.OFF, Value.OFF, Value.OFF⟩) :=
  ⟨newline_resets_and_bad_hex_is_silent.1 ⟨0, 4⟩ "93 3c".toList "9g".toList
      ⟨Value.OFF, Value.OFF, Value.OFF⟩,
   newline_resets_and_bad_hex_is_silent.2 ⟨0, 4⟩ ⟨Value.OFF, Value.OFF, Value.OFF⟩
      "9g".toList ⟨['9', 'g'], by decide, by decide⟩⟩

/-- **C5 (counterexample).** The decoder is not restricted to 2-digit
tokens and decoded values are not bounded by 255: the buffer `93 fff`
decodes (the 3-digit token `fff` yields 4095, far above 255) and the
router even emits the fallback action for it. -/
theorem decode_not_two_digit_counterexample :
    decodeFrame "93 fff".toList = some [0x93, 4095] ∧
    ¬ (4095 : Nat) ≤ 255 ∧
    callback ⟨2, 4⟩ ⟨Value.OFF, Value.OFF, Value.OFF⟩ "93 fff".toList =
      (Except.ok (some 2), ⟨Value.OFF, Value.ON, Value.OFF⟩) := by
  refine ⟨by decide, by decide, by decide⟩

/-- **C5 (amended).** A decode attempt proceeds to interpretation exactly
when every whitespace-separated token of the buffer parses as a CPython
base-16 numeral (any number of digits, single underscores allowed between
digits — not only 2-digit values), and the byte sequence handed to the
router is precisely the tokens' values in order; those values are
nonnegative but need not be ≤ 255. -/
theorem decode_proceeds_iff_all_tokens_hex : ∀ (buffer : List Char),
    ((decodeFrame buffer).isSome ↔ ∀ tok ∈ splitWs buffer, (pyHexVal tok).isSome) ∧
    (∀ l : List Nat, decodeFrame buffer = some l ↔
      List.Forall₂ (fun tok v => pyHexVal tok = some v) (splitWs buffer) l) := by
  intro buffer
  constructor
  · unfold decodeFrame
    generalize splitWs buffer = ts
    induction ts with
    | nil => simp [hexListVal]
    | cons x xs ih =>
      unfold hexListVal
      cases hx : pyHexVal x with
      | none => simp [hx]
      | some v =>
        cases hys : hexListVal xs with
        | none =>
          rw [hys] at ih
          simp only [Option.isSome_none, Bool.false_eq_true, false_iff, not_forall] at ih
          simp only [Option.isSome_none, Bool.false_eq_true, false_iff, not_forall]
          obtain ⟨t, ht, hfail⟩ := ih
          exact ⟨t, List.mem_cons_of_mem x ht, hfail⟩
        | some vs =>
          rw [hys] at ih
          simp only [Option.isSome_some, true_iff] at ih
          simp only [Option.isSome_some, true_iff]
          intro t ht
          rcases List.mem_cons.1 ht with rfl | hmem
          · rw [hx]; rfl
          · exact ih t hmem
  · intro l
    exact hexListVal_some_iff (splitWs buffer) l

/-- Witness for C5 (amended): on the valid buffer `93 3c` both directions
produce the decoded frame `[0x93, 0x3c]`. -/
theorem decode_proceeds_iff_all_tokens_hex_witness :
    (decodeFrame "93 3c".toList).isSome ∧
    List.Forall₂ (fun tok v => pyHexVal tok = some v) (splitWs "93 3c".toList)
      [0x93, 0x3c] :=
  ⟨(decode_proceeds_iff_all_tokens_hex "93 3c".toList).1.mpr (by decide),
   ((decode_proceeds_iff_all_tokens_hex "93 3c".toList).2 [0x93, 0x3c]).1 (by decide)⟩

/-- **C1.** For a NOTE_ON frame (`status & 0xF0 = 0x90`): a channel
mismatch emits nothing, an empty data list emits nothing, and otherwise
the emitted bitmask is the `NOTE_TO_VALUE` entry for the first data byte
when present and the configured base value when absent. -/
theorem note_on_routing : ∀ (cfg : Config) (s : RelayState) (status : Nat) (data : List Nat),
    status &&& 0xF0 = 0x90 →
    ((((status &&& 0x0F : Nat) : Int) + 1 ≠ cfg.channel →
        route cfg s (status :: data) = (Except.ok none, s)) ∧
     (data = [] → route cfg s (status :: data) = (Except.ok none, s)) ∧
     (∀ (n : Nat) (rest : List Nat), data = n :: rest →
        (((status &&& 0x0F : Nat) : Int) + 1 = cfg.channel) →
        0 ≤ cfg.base_value → cfg.base_value ≤ 7 →
        ∃ s1, route cfg s (status :: data) =
          (Except.ok (some (noteToValueGet n cfg.base_value)), s1))) := by
  intro cfg s status data h90
  refine ⟨?_, ?_, ?_⟩
  · intro hch
    simp [route, h90, set_note_on, hch]
  · rintro rfl
    simp only [route, h90]
    norm_num [set_note_on]
  · rintro n rest rfl hch hb0 hb7
    obtain ⟨lo, hi⟩ := noteToValueGet_range n cfg.base_value hb0 hb7
    obtain ⟨s2, hs2⟩ := set_value_ok_of_range (noteToValueGet n cfg.base_value) s lo hi
    refine ⟨s2, ?_⟩
    simp [route, h90, set_note_on, hch, hs2]

/-- Witness for C1: status `0x93` (NOTE_ON, channel 4), data `[60]`,
listen channel 4, base 0 — the emitted bitmask is `NOTE_TO_VALUE[60] = 1`. -/
theorem note_on_routing_witness :
    noteToValueGet 60 0 = 1 ∧
    ∃ s1, route ⟨0, 4⟩ ⟨Value.OFF, Value.OFF, Value.OFF⟩ [0x93, 60] =
      (Except.ok (some (noteToValueGet 60 0)), s1) :=
  ⟨by decide,
   (note_on_routing ⟨0, 4⟩ ⟨Value.OFF, Value.OFF, Value.OFF⟩ 0x93 [60]
      (by decide)).2.2 60 [] rfl (by decide) (by decide) (by decide)⟩

/-- **C3 (the code, evaluated at the failing input).** A NOTE_OFF frame
does not reach `set_value`, but the `_logger.debug` slip at line 268
raises `AttributeError`, which propagates and aborts the control loop:
routing `[0x83, 60]` errors, and a run over the stream `"\n83"` ends in
`AttributeError` after only the startup application of the base bitmask. -/
theorem note_off_raises_attribute_error :
    route ⟨0, 4⟩ ⟨Value.OFF, Value.OFF, Value.OFF⟩ [0x83, 60] =
      (Except.error PyError.attributeError, ⟨Value.OFF, Value.OFF, Value.OFF⟩) ∧
    run_forever ⟨0, 4⟩ ⟨Value.OFF, Value.OFF, Value.OFF⟩ "\n83".toList =
      (Except.error PyError.attributeError, ⟨Value.OFF, Value.OFF, Value.OFF⟩, [0]) := by
  refine ⟨by decide, by decide⟩

/-- **C7.** When `run_forever` starts with a base value in `[0, 7]`, the
base bitmask is applied to the bank by `set_value` before the character
loop consumes any input: the run decomposes as that startup application
followed by the loop from the resulting state, and the startup bitmask
heads the trace for every input stream. -/
theorem base_applied_before_input : ∀ (cfg : Config) (s : RelayState) (input : List Char),
    0 ≤ cfg.base_value → cfg.base_value ≤ 7 →
    ∃ s1, set_value cfg.base_value s = (Except.ok (), s1) ∧
      run_forever cfg s input =
        ((loop cfg (readline input) [] s1).1,
         (loop cfg (readline input) [] s1).2.1,
         cfg.base_value :: (loop cfg (readline input) [] s1).2.2) ∧
      (run_forever cfg s input).2.2.head? = some cfg.base_value := by
  intro cfg s input h0 h7
  obtain ⟨s1, hs1⟩ := set_value_ok_of_range cfg.base_value s h0 h7
  have hrun : run_forever cfg s input =
      ((loop cfg (readline input) [] s1).1,
       (loop cfg (readline input) [] s1).2.1,
       cfg.base_value :: (loop cfg (readline input) [] s1).2.2) := by
    unfold run_forever
    rw [hs1]
  refine ⟨s1, hs1, hrun, ?_⟩
  rw [hrun]
  rfl

/-- Witness for C7 at base 5 over the stream `"x\n93 3c"`. -/
theorem base_applied_before_input_witness :
    ∃ s1, set_value 5 ⟨Value.OFF, Value.OFF, Value.OFF⟩ = (Except.ok (), s1) ∧
      run_forever ⟨5, 4⟩ ⟨Value.OFF, Value.OFF, Value.OFF⟩ "x\n93 3c".toList =
        ((loop ⟨5, 4⟩ (readline "x\n93 3c".toList) [] s1).1,
         (loop ⟨5, 4⟩ (readline "x\n93 3c".toList) [] s1).2.1,
         5 :: (loop ⟨5, 4⟩ (readline "x\n93 3c".toList) [] s1).2.2) ∧
      (run_forever ⟨5, 4⟩ ⟨Value.OFF, Value.OFF, Value.OFF⟩ "x\n93 3c".toList).2.2.head? =
        some 5 :=
  base_applied_before_input ⟨5, 4⟩ ⟨Value.OFF, Value.OFF, Value.OFF⟩ "x\n93 3c".toList
    (by decide) (by decide)

lemma readline_append (pre rest : List Char) (h : '\n' ∉ pre) :
    readline (pre ++ '\n' :: rest) = rest := by
  induction pre with
  | nil => simp [readline]
  | cons c cs ih =>
    simp only [List.mem_cons, not_or] at h
    simp only [List.cons_append, readline]
    rw [List.append_eq, if_neg (Ne.symm h.1), ih h.2]

/-- **C10.** `run_forever` discards one full line before the decode loop
starts: the stream's characters before its first newline never reach
`_callback`, so the whole run is insensitive to them. -/
theorem first_line_discarded : ∀ (cfg : Config) (s : RelayState) (pre rest : List Char),
    '\n' ∉ pre →
    readline (pre ++ '\n' :: rest) = rest ∧
    run_forever cfg s (pre ++ '\n' :: rest) = run_forever cfg s ('\n' :: rest) := by
  intro cfg s pre rest h
  have hr := readline_append pre rest h
  refine ⟨hr, ?_⟩
  unfold run_forever
  rw [hr]
  simp [readline]

/-- Witness for C10: the pre-newline garbage `9h &` has no effect on the
run over `"93 3c"`. -/
theorem first_line_discarded_witness :
    readline ("9h &".toList ++ '\n' :: "93 3c".toList) = "93 3c".toList ∧
    run_forever ⟨0, 4⟩ ⟨Value.OFF, Value.OFF, Value.OFF⟩
        ("9h &".toList ++ '\n' :: "93 3c".toList) =
      run_forever ⟨0, 4⟩ ⟨Value.OFF, Value.OFF, Value.OFF⟩ ('\n' :: "93 3c".toList) :=
  first_line_discarded ⟨0, 4⟩ ⟨Value.OFF, Value.OFF, Value.OFF⟩ "9h &".toList
    "93 3c".toList (by decide)

/-- **C8.** Starting from a hardware world holding no channel, when any of
the three GPIO channels fails during bank construction the whole
construction aborts with the exception (no bank value is returned) and
every channel acquired before the failure has been released: the set of
held channels is empty again. -/
theorem bank_construction_no_leak : ∀ w : HwWorld, w.acquired = [] →
    (w.fails RELAY_1_GPIO_PIN || w.fails RELAY_2_GPIO_PIN ||
      w.fails RELAY_3_GPIO_PIN) = true →
    (relay_controller_init w).1 = Except.error PyError.oserror ∧
    ((relay_controller_init w).2).acquired = [] := by
  intro w hemp hf
  unfold relay_controller_init relay_init relay_del
  cases h1 : w.fails RELAY_1_GPIO_PIN <;>
    cases h2 : w.fails RELAY_2_GPIO_PIN <;>
    cases h3 : w.fails RELAY_3_GPIO_PIN <;>
    simp [h1, h2, h3, hemp] at hf ⊢

/-- Witness for C8: only channel 20 (`RELAY_2_GPIO_PIN`) fails; channel 26
is acquired first and released again. -/
theorem bank_construction_no_leak_witness :
    (relay_controller_init ⟨[], fun ch => ch == 20⟩).1 =
      Except.error PyError.oserror ∧
    ((relay_controller_init ⟨[], fun ch => ch == 20⟩).2).acquired = [] :=
  bank_construction_no_leak ⟨[], fun ch => ch == 20⟩ rfl (by decide)

end ValveControl
